import Mathlib

/-!
Shallow embedding of the obsidian-format-check plugin
(src/src/main.ts and src/settings.ts) and verification of its
natural-language specification.

The plugin keeps a set of file paths whose frontmatter says the file
needs re-formatting.  We embed the settings record, the frontmatter
timestamp parser `toMs`, the folder-scope test `isInScope`, the
per-file update `checkFile`, and the event handlers that mutate the
tracked-path set, then prove the spec claims about them.
-/

namespace FormatCheck

/-- Settings record from src/settings.ts (`FormatCheckSettings`). -/
structure FormatCheckSettings where
  dotColor : String
  includedFolders : List String
  formattedField : String
  modifiedField : String
deriving DecidableEq

/-- `DEFAULT_SETTINGS` from src/settings.ts. -/
def DEFAULT_SETTINGS : FormatCheckSettings :=
  { dotColor := "#f59e0b"
    includedFolders := []
    formattedField := "formatted"
    modifiedField := "modified" }

/-- A persisted settings blob as returned by the host's `loadData()`:
any subset of the four fields may be present. -/
structure PartialSettings where
  dotColor : Option String
  includedFolders : Option (List String)
  formattedField : Option String
  modifiedField : Option String

/-- `loadSettings` from src/src/main.ts lines 225-231:
`Object.assign({}, DEFAULT_SETTINGS, await this.loadData())` keeps a
stored field when present and falls back to the default otherwise. -/
def loadSettings (d : PartialSettings) : FormatCheckSettings :=
  { dotColor := d.dotColor.getD DEFAULT_SETTINGS.dotColor
    includedFolders := d.includedFolders.getD DEFAULT_SETTINGS.includedFolders
    formattedField := d.formattedField.getD DEFAULT_SETTINGS.formattedField
    modifiedField := d.modifiedField.getD DEFAULT_SETTINGS.modifiedField }

/-- A frontmatter value as seen by `toMs`: a YAML-parsed `Date` object
(whose `getTime()` is either a number or NaN, modelled as `Option Int`),
a string, or any other value. -/
inductive FmValue where
  | date (ms : Option Int)
  | str (s : String)
  | other
deriving DecidableEq

/-- A per-file frontmatter snapshot: the key/value pairs of the cached
frontmatter object. -/
abbrev Frontmatter := List (String × FmValue)

/-- Property lookup `frontmatter[field]`. -/
def lookupFm (fm : Frontmatter) (field : String) : Option FmValue :=
  List.lookup field fm

/-- Numeric value of a digit character, `none` for non-digits. -/
def digitVal (c : Char) : Option Nat :=
  if c.isDigit then some (c.toNat - 48) else none

/-- Gregorian leap-year test. -/
def isLeap (y : Nat) : Bool :=
  y % 4 = 0 && (y % 100 ≠ 0 || y % 400 = 0)

/-- Number of days in a month of a given year. -/
def daysInMonth (y m : Nat) : Nat :=
  if m = 2 then (if isLeap y then 29 else 28)
  else if m = 4 || m = 6 || m = 9 || m = 11 then 30
  else 31

/-- Days in the months of year `y` strictly before month `m`. -/
def daysBeforeMonth (y m : Nat) : Nat :=
  (List.range m).foldl (fun acc k => if 1 ≤ k then acc + daysInMonth y k else acc) 0

/-- Days from 1970-01-01 to year `y`, month `m`, day `d` (proleptic
Gregorian, years 1-9999 as produced by a four-digit year field). -/
def epochDays (y m d : Nat) : Int :=
  (365 * ((y : Int) - 1) + ((y : Int) - 1) / 4 - ((y : Int) - 1) / 100
    + ((y : Int) - 1) / 400)
  + (daysBeforeMonth y m : Int) + ((d : Int) - 1) - 719162

/-- ECMAScript Date Time String parsing of the fixed layout
`YYYY-MM-DDTHH:mm` used by the plugin (the `YYYY-MM-DD HH:mm` layout
after the space is replaced by `T`).  Returns the millisecond value of
the wall-clock components read as if they were UTC; `none` when the
string does not match the layout or a component is out of range. -/
def parseIsoLocalChars : List Char → Option Int
  | [y1, y2, y3, y4, '-', m1, m2, '-', d1, d2, 'T', h1, h2, ':', n1, n2] => do
    let a ← digitVal y1
    let b ← digitVal y2
    let c ← digitVal y3
    let e ← digitVal y4
    let y := ((a * 10 + b) * 10 + c) * 10 + e
    let f ← digitVal m1
    let g ← digitVal m2
    let mo := f * 10 + g
    let i ← digitVal d1
    let j ← digitVal d2
    let day := i * 10 + j
    let k ← digitVal h1
    let l ← digitVal h2
    let h := k * 10 + l
    let p ← digitVal n1
    let q ← digitVal n2
    let mi := p * 10 + q
    if 1 ≤ mo && mo ≤ 12 && 1 ≤ day && day ≤ daysInMonth y mo
        && ((h ≤ 23 && mi ≤ 59) || (h = 24 && mi = 0)) then
      some (epochDays y mo day * 86400000 + (h : Int) * 3600000 + (mi : Int) * 60000)
    else
      none
  | _ => none

/-- `value.trim().replace(' ', 'T')`: JavaScript string `replace` with a
string pattern replaces only the first occurrence. -/
def replaceFirstSpace : List Char → List Char
  | [] => []
  | c :: cs => if c = ' ' then 'T' :: cs else c :: replaceFirstSpace cs

/-- JavaScript `String.prototype.trim` on the character sequence:
whitespace stripped from both ends. -/
def trimChars (cs : List Char) : List Char :=
  ((cs.dropWhile Char.isWhitespace).reverse.dropWhile Char.isWhitespace).reverse

/-- `toMs` from src/src/main.ts lines 123-135.  `tz` is the host's
local-time offset in minutes west of UTC (`Date.getTimezoneOffset()`):
a date-time string without a timezone designator is interpreted as
local time, so its epoch value is the components-as-UTC value plus the
offset.  A missing value (`undefined`), a non-Date non-string value, a
blank string, an invalid `Date` object and an unparseable string all
yield `none`. -/
def toMs (tz : Int) (value : Option FmValue) : Option Int :=
  match value with
  | some (FmValue.date ms) => ms
  | some (FmValue.str s) =>
    let t := trimChars s.toList
    if t = [] then none
    else
      match parseIsoLocalChars (replaceFirstSpace t) with
      | some utcMs => some (utcMs + tz * 60000)
      | none => none
  | _ => none

/-- The prefix `checkFile` compares against for a configured folder
entry: the entry's characters, a `/` separator appended only when the
entry does not already end with `/`. -/
def withSep (folder : String) : List Char :=
  if folder.toList.getLast? = some '/' then folder.toList
  else folder.toList ++ ['/']

/-- `isInScope` from src/src/main.ts lines 137-144: every path is in
scope when the folder list is empty; otherwise the path must start with
some configured entry plus trailing separator. -/
def isInScope (settings : FormatCheckSettings) (path : String) : Bool :=
  if settings.includedFolders.isEmpty then true
  else
    settings.includedFolders.any fun folder =>
      List.isPrefixOf (withSep folder) path.toList

/-- The needs-formatting predicate, src/src/main.ts lines 108-110:
`formattedMs === null || (modifiedMs !== null && formattedMs < modifiedMs)`. -/
def needsFormat : Option Int → Option Int → Bool
  | none, _ => true
  | some f, some m => decide (f < m)
  | some _, none => false

/-- The boolean computed by `checkFile` from a frontmatter snapshot,
src/src/main.ts lines 104-110: parse the two configured fields with
`toMs` and apply the needs-formatting predicate. -/
def checkOutcome (tz : Int) (settings : FormatCheckSettings) (fm : Frontmatter) : Bool :=
  needsFormat (toMs tz (lookupFm fm settings.formattedField))
    (toMs tz (lookupFm fm settings.modifiedField))

/-- The host-owned environment a `checkFile` call reads: the current
settings, the metadata cache (`getFileCache(file)?.frontmatter`,
collapsing a missing cache entry and a cache entry without frontmatter
into `none`), and the local timezone offset. -/
structure Env where
  settings : FormatCheckSettings
  cache : String → Option Frontmatter
  tz : Int

/-- `checkFile` from src/src/main.ts lines 90-117, acting on the
tracked-path set `needsFormatPaths`. -/
def checkFile (env : Env) (path : String) (s : Finset String) : Finset String :=
  if isInScope env.settings path = false then s.erase path
  else
    match env.cache path with
    | none => s.erase path
    | some fm =>
      if checkOutcome env.tz env.settings fm then insert path s
      else s.erase path

/-- `scanAllFiles` from src/src/main.ts lines 83-88: clear the set and
re-check every markdown file. -/
def scanAllFiles (env : Env) (files : List String) : Finset String :=
  files.foldl (fun s f => checkFile env f s) ∅

/-- The vault `rename` handler, src/src/main.ts lines 53-68: remember
whether the old path was tracked, drop it, and only when it was tracked
re-check the file under its new path. -/
def renameHandler (env : Env) (newPath oldPath : String) (s : Finset String) :
    Finset String :=
  if oldPath ∈ s then checkFile env newPath (s.erase oldPath)
  else s.erase oldPath

/-- One plugin operation that touches the tracked-path set:
a full rescan, a metadata-changed event, the vault delete handler, the
vault rename handler, or `saveSettings` (which rescans, lines 233-238). -/
inductive Op where
  | scanAll (files : List String)
  | metadataChanged (path : String)
  | deleteFile (path : String)
  | renameFile (newPath oldPath : String)
  | saveSettings (files : List String)

/-- Effect of one operation on the tracked-path set. -/
def applyOp (env : Env) (s : Finset String) : Op → Finset String
  | Op.scanAll files => scanAllFiles env files
  | Op.metadataChanged p => checkFile env p s
  | Op.deleteFile p => s.erase p
  | Op.renameFile newPath oldPath => renameHandler env newPath oldPath s
  | Op.saveSettings files => scanAllFiles env files

/-- Running a sequence of operations from a starting set. -/
def runOps (env : Env) (ops : List Op) (s : Finset String) : Finset String :=
  ops.foldl (applyOp env) s

/-- Reference needs-formatting predicate, written from the spec's words:
"return true if the first is absent, or if both are present and the
first precedes the second". -/
def specNeedsFormat (f m : Option Int) : Prop :=
  f = none ∨ ∃ a b, f = some a ∧ m = some b ∧ a < b

/-- The settings with the two configurable field names exchanged. -/
def swapFields (s : FormatCheckSettings) : FormatCheckSettings :=
  { s with formattedField := s.modifiedField, modifiedField := s.formattedField }

/-- The spec's invariant on a tracked path: it is inside the configured
folder scope, and whenever its cached frontmatter has both configured
fields parseable, the formatted timestamp is strictly before the
modified timestamp. -/
def goodPath (env : Env) (p : String) : Prop :=
  isInScope env.settings p = true ∧
  ∀ fm a b, env.cache p = some fm →
    toMs env.tz (lookupFm fm env.settings.formattedField) = some a →
    toMs env.tz (lookupFm fm env.settings.modifiedField) = some b →
    a < b

/-- Debounce state: the plugin's `debounceTimer` variable, the host's
queue of pending (uncancelled) timer ids, a fresh-id counter, and the
number of times the deferred `applyDecorations` callback has run. -/
structure DebounceState where
  debounceTimer : Option Nat
  pendingTimers : List Nat
  nextId : Nat
  runs : Nat
deriving DecidableEq

/-- Debounce state at plugin load: no timer pending, no runs. -/
def initDebounce : DebounceState :=
  { debounceTimer := none, pendingTimers := [], nextId := 0, runs := 0 }

/-- `scheduleApplyDecorations` from src/src/main.ts lines 148-154:
`clearTimeout` any remembered timer, then `setTimeout` a fresh one and
remember it. -/
def scheduleApplyDecorations (st : DebounceState) : DebounceState :=
  let cleared :=
    match st.debounceTimer with
    | some t => st.pendingTimers.erase t
    | none => st.pendingTimers
  { debounceTimer := some st.nextId
    pendingTimers := cleared ++ [st.nextId]
    nextId := st.nextId + 1
    runs := st.runs }

/-- The host fires timer `t`: if it is still pending, the callback runs
`applyDecorations` and nulls `debounceTimer`; a cancelled timer does
nothing. -/
def fireTimer (st : DebounceState) (t : Nat) : DebounceState :=
  if t ∈ st.pendingTimers then
    { debounceTimer := none
      pendingTimers := st.pendingTimers.erase t
      nextId := st.nextId
      runs := st.runs + 1 }
  else st

/-- The fixed delay elapses: every still-pending timer fires. -/
def fireAll (st : DebounceState) : DebounceState :=
  st.pendingTimers.foldl fireTimer st

/-- `n` back-to-back `scheduleApplyDecorations` calls within the delay,
starting from the load state. -/
def schedN : Nat → DebounceState
  | 0 => initDebounce
  | n + 1 => scheduleApplyDecorations (schedN n)

/-- Concrete environment: default settings (every path in scope),
one file `notes/a.md` whose frontmatter has a parseable `modified`
value but no `formatted` field at all. -/
def envMissingFormatted : Env :=
  { settings := DEFAULT_SETTINGS
    cache := fun p =>
      if p = "notes/a.md" then some [("modified", FmValue.str "2026-01-15 09:30")]
      else none
    tz := 0 }

/-- Concrete environment: default settings, metadata cache with no
frontmatter for any file. -/
def envNoFrontmatter : Env :=
  { settings := DEFAULT_SETTINGS
    cache := fun _ => none
    tz := 0 }

/-- Concrete environment: folder scope restricted to `notes`, every
file carrying a parseable `modified` value and no `formatted` field. -/
def envScoped : Env :=
  { settings := { DEFAULT_SETTINGS with includedFolders := ["notes"] }
    cache := fun _ => some [("modified", FmValue.str "2026-01-15 09:30")]
    tz := 0 }

/-- The spec's first example frontmatter:
`{modified: "2026-01-15 09:30", formatted: "2026-01-14 18:00"}`. -/
def fmExampleA : Frontmatter :=
  [("modified", FmValue.str "2026-01-15 09:30"),
   ("formatted", FmValue.str "2026-01-14 18:00")]

/-- The spec's second example frontmatter:
`{modified: "2026-01-14 18:00", formatted: "2026-01-15 09:30"}`. -/
def fmExampleB : Frontmatter :=
  [("modified", FmValue.str "2026-01-14 18:00"),
   ("formatted", FmValue.str "2026-01-15 09:30")]

/-- A concrete persisted settings blob with two of the four fields. -/
def partialBlobExample : PartialSettings :=
  { dotColor := some "#ff0000"
    includedFolders := none
    formattedField := none
    modifiedField := some "edited" }

/- ── Helper lemmas about checkFile ──────────────────────────────────── -/

theorem checkFile_scope_false {env : Env} {p : String} (s : Finset String)
    (hscope : isInScope env.settings p = false) :
    checkFile env p s = s.erase p := by
  unfold checkFile
  rw [if_pos hscope]

theorem checkFile_cache_none {env : Env} {p : String} (s : Finset String)
    (hfm : env.cache p = none) :
    checkFile env p s = s.erase p := by
  unfold checkFile
  rw [hfm]
  split
  · rfl
  · rfl

theorem checkFile_scope_true_cache_some {env : Env} {p : String} {fm : Frontmatter}
    (s : Finset String)
    (hscope : isInScope env.settings p = true)
    (hfm : env.cache p = some fm) :
    checkFile env p s =
      if checkOutcome env.tz env.settings fm then insert p s else s.erase p := by
  unfold checkFile
  rw [hfm, hscope]
  rfl

theorem mem_checkFile_elim {env : Env} {p q : String} {s : Finset String}
    (h : p ∈ checkFile env q s) :
    (p = q ∧ isInScope env.settings q = true ∧
      ∃ fm, env.cache q = some fm ∧ checkOutcome env.tz env.settings fm = true)
    ∨ p ∈ s := by
  by_cases hscope : isInScope env.settings q = true
  · rcases hcache : env.cache q with _ | fm
    · rw [checkFile_cache_none s hcache] at h
      exact Or.inr (Finset.mem_of_mem_erase h)
    · rw [checkFile_scope_true_cache_some s hscope hcache] at h
      by_cases hout : checkOutcome env.tz env.settings fm = true
      · rw [if_pos hout] at h
        rcases Finset.mem_insert.mp h with hpq | hp
        · exact Or.inl ⟨hpq, hscope, fm, rfl, hout⟩
        · exact Or.inr hp
      · rw [if_neg hout] at h
        exact Or.inr (Finset.mem_of_mem_erase h)
  · rw [Bool.not_eq_true] at hscope
    rw [checkFile_scope_false s hscope] at h
    exact Or.inr (Finset.mem_of_mem_erase h)

theorem not_mem_checkFile_of_ne {env : Env} {p q : String} {s : Finset String}
    (hne : p ≠ q) (hp : p ∉ s) : p ∉ checkFile env q s := by
  intro h
  rcases mem_checkFile_elim h with ⟨hpq, _, _⟩ | hmem
  · exact hne hpq
  · exact hp hmem

theorem goodPath_of_outcome {env : Env} {q : String} {fm : Frontmatter}
    (hscope : isInScope env.settings q = true)
    (hfm : env.cache q = some fm)
    (hout : checkOutcome env.tz env.settings fm = true) :
    goodPath env q := by
  refine ⟨hscope, ?_⟩
  intro fm2 a b hfm2 ha hb
  rw [hfm] at hfm2
  injection hfm2 with hfmeq
  subst hfmeq
  unfold checkOutcome at hout
  rw [ha, hb] at hout
  simp only [needsFormat, decide_eq_true_eq] at hout
  exact hout

theorem good_of_mem_checkFile {env : Env} {p q : String} {s : Finset String}
    (hs : ∀ x ∈ s, goodPath env x) (h : p ∈ checkFile env q s) : goodPath env p := by
  rcases mem_checkFile_elim h with ⟨hpq, hscope, fm, hfm, hout⟩ | hp
  · subst hpq
    exact goodPath_of_outcome hscope hfm hout
  · exact hs p hp

theorem good_of_mem_foldl {env : Env} :
    ∀ (files : List String) (s : Finset String),
      (∀ x ∈ s, goodPath env x) →
      ∀ p ∈ files.foldl (fun acc f => checkFile env f acc) s, goodPath env p := by
  intro files
  induction files with
  | nil => intro s hs p hp; exact hs p hp
  | cons f fs ih =>
    intro s hs p hp
    exact ih (checkFile env f s) (fun x hx => good_of_mem_checkFile hs hx) p hp

theorem good_of_mem_scanAll {env : Env} {files : List String} {p : String}
    (hp : p ∈ scanAllFiles env files) : goodPath env p :=
  good_of_mem_foldl files ∅
    (fun x hx => absurd hx (Finset.not_mem_empty x)) p hp

theorem good_of_mem_applyOp {env : Env} {s : Finset String} {op : Op}
    (hs : ∀ x ∈ s, goodPath env x) :
    ∀ p ∈ applyOp env s op, goodPath env p := by
  intro p hp
  cases op with
  | scanAll files =>
    simp only [applyOp] at hp
    exact good_of_mem_scanAll hp
  | metadataChanged q =>
    simp only [applyOp] at hp
    exact good_of_mem_checkFile hs hp
  | deleteFile q =>
    simp only [applyOp] at hp
    exact hs p (Finset.mem_of_mem_erase hp)
  | renameFile newPath oldPath =>
    simp only [applyOp] at hp
    unfold renameHandler at hp
    split at hp
    · exact good_of_mem_checkFile (fun x hx => hs x (Finset.mem_of_mem_erase hx)) hp
    · exact hs p (Finset.mem_of_mem_erase hp)
  | saveSettings files =>
    simp only [applyOp] at hp
    exact good_of_mem_scanAll hp

theorem good_of_mem_runOps {env : Env} :
    ∀ (ops : List Op) (s : Finset String),
      (∀ x ∈ s, goodPath env x) →
      ∀ p ∈ runOps env ops s, goodPath env p := by
  intro ops
  induction ops with
  | nil => intro s hs p hp; exact hs p hp
  | cons o os ih =>
    intro s hs p hp
    exact ih (applyOp env s o) (good_of_mem_applyOp hs) p hp

/-- C4: starting from the empty tracked-path set, after any sequence of
the plugin's operations (full rescans, metadata-changed checks, delete
and rename handlers, saveSettings), every tracked path is inside the
configured folder scope, and whenever its frontmatter has both
configured fields parseable the formatted timestamp is strictly before
the modified timestamp. -/
theorem c4_tracked_set_invariant :
    ∀ (env : Env) (ops : List Op) (p : String),
      p ∈ runOps env ops ∅ → goodPath env p := by
  intro env ops p hp
  exact good_of_mem_runOps ops ∅
    (fun x hx => absurd hx (Finset.not_mem_empty x)) p hp

/-- Witness for C4: in an environment where `notes/a.md` has a
parseable modified timestamp and no formatted field, one
metadata-changed event tracks it and the invariant holds for it. -/
theorem c4_tracked_set_invariant_witness :
    goodPath envMissingFormatted "notes/a.md" :=
  c4_tracked_set_invariant envMissingFormatted
    [Op.metadataChanged "notes/a.md"] "notes/a.md" (by decide)

/-- C1 counterexample: `notes/a.md` is in scope, its metadata cache
entry has frontmatter with a missing formatted field (one of the
claim's failure modes), yet `checkFile` puts the path INTO the
tracked-path set, contradicting "resolves to the does-not-need-
formatting outcome, i.e. the file's path is not in the tracked-path
set". -/
theorem c1_counterexample :
    "notes/a.md" ∈ checkFile envMissingFormatted "notes/a.md" ∅ := by
  decide

/-- C1 (amended): a path outside the configured scope and a missing
metadata cache entry resolve to "does not need formatting" (the path is
not in the tracked set), and so does an unparseable or missing modified
field when the formatted field parses; but a missing or unparseable
formatted field instead resolves to "needs formatting". -/
theorem c1_amended_silent_failures :
    ∀ (env : Env) (p : String) (s : Finset String),
      ((isInScope env.settings p = false ∨ env.cache p = none) →
        p ∉ checkFile env p s) ∧
      (∀ fm, env.cache p = some fm →
        (toMs env.tz (lookupFm fm env.settings.formattedField)).isSome = true →
        toMs env.tz (lookupFm fm env.settings.modifiedField) = none →
        p ∉ checkFile env p s) := by
  intro env p s
  constructor
  · intro h
    rcases h with h | h
    · rw [checkFile_scope_false s h]
      exact Finset.not_mem_erase p s
    · rw [checkFile_cache_none s h]
      exact Finset.not_mem_erase p s
  · intro fm hfm hsome hmod
    by_cases hscope : isInScope env.settings p = true
    · rw [checkFile_scope_true_cache_some s hscope hfm]
      have hout : checkOutcome env.tz env.settings fm = false := by
        unfold checkOutcome
        rcases Option.isSome_iff_exists.mp hsome with ⟨a, ha⟩
        rw [ha, hmod]
        rfl
      rw [hout]
      simp only [Bool.false_eq_true, if_false]
      exact Finset.not_mem_erase p s
    · rw [Bool.not_eq_true] at hscope
      rw [checkFile_scope_false s hscope]
      exact Finset.not_mem_erase p s

/-- Witness for C1 (amended): with a metadata cache holding no
frontmatter at all, `x.md` is not tracked after a check. -/
theorem c1_amended_silent_failures_witness :
    "x.md" ∉ checkFile envNoFrontmatter "x.md" ∅ :=
  (c1_amended_silent_failures envNoFrontmatter "x.md" ∅).1 (Or.inr rfl)

/-- C2: the needs-formatting predicate computed by `checkFile` agrees
with the reference definition from the spec: true exactly when the
formatted value is absent, or both values are present and the formatted
one strictly precedes the modified one; false in every other case. -/
theorem c2_predicate_refines_spec :
    ∀ f m : Option Int, needsFormat f m = true ↔ specNeedsFormat f m := by
  intro f m
  cases f with
  | none => simp [needsFormat, specNeedsFormat]
  | some a =>
    cases m with
    | none => simp [needsFormat, specNeedsFormat]
    | some b => simp [needsFormat, specNeedsFormat]

/-- C3 counterexample: `notes/b.md` is in scope and its metadata cache
entry has no frontmatter; the claim says `checkFile` must leave the
path in the tracked set, but the code removes it. -/
theorem c3_counterexample :
    "notes/b.md" ∉ checkFile envNoFrontmatter "notes/b.md" {"notes/b.md"} := by
  decide

/-- C3 (amended): for every in-scope file whose cached frontmatter is
present but whose formatted field is missing or unparseable, `checkFile`
puts the path into the tracked set; a file whose metadata cache entry
has no frontmatter at all is instead removed from the set. -/
theorem c3_amended_missing_formatted_tracked :
    ∀ (env : Env) (p : String) (s : Finset String) (fm : Frontmatter),
      isInScope env.settings p = true →
      env.cache p = some fm →
      toMs env.tz (lookupFm fm env.settings.formattedField) = none →
      p ∈ checkFile env p s := by
  intro env p s fm hscope hfm hform
  rw [checkFile_scope_true_cache_some s hscope hfm]
  have hout : checkOutcome env.tz env.settings fm = true := by
    unfold checkOutcome
    rw [hform]
    rfl
  rw [if_pos hout]
  exact Finset.mem_insert_self p s

/-- Witness for C3 (amended): `notes/a.md`, in scope with a frontmatter
lacking the formatted field, lands in the tracked set. -/
theorem c3_amended_missing_formatted_tracked_witness :
    "notes/a.md" ∈ checkFile envMissingFormatted "notes/a.md" {"misc.md"} :=
  c3_amended_missing_formatted_tracked envMissingFormatted "notes/a.md" {"misc.md"}
    [("modified", FmValue.str "2026-01-15 09:30")]
    (by decide) (by decide) (by decide)

/-- C5: with a non-empty includedFolders list, a path that does not
start with any configured entry followed by the separator (appended
only when the entry does not already end with a slash) is never tracked
by `checkFile`, regardless of the timestamp fields. -/
theorem c5_out_of_scope_excluded :
    ∀ (env : Env) (p : String) (s : Finset String),
      env.settings.includedFolders ≠ [] →
      (∀ folder ∈ env.settings.includedFolders,
        List.isPrefixOf (withSep folder) p.toList = false) →
      p ∉ checkFile env p s := by
  intro env p s hne hpref
  have hemp : env.settings.includedFolders.isEmpty = false := by
    cases h : env.settings.includedFolders
    · exact absurd h hne
    · rfl
  have hscope : isInScope env.settings p = false := by
    unfold isInScope
    rw [hemp]
    simp only [Bool.false_eq_true, if_false]
    rw [List.any_eq_false]
    intro folder hmem h
    rw [hpref folder hmem] at h
    exact Bool.false_ne_true h
  rw [checkFile_scope_false s hscope]
  exact Finset.not_mem_erase p s

/-- Witness for C5: with scope `["notes"]`, the out-of-scope file
`other/b.md` is not tracked even though its frontmatter would need
formatting. -/
theorem c5_out_of_scope_excluded_witness :
    "other/b.md" ∉ checkFile envScoped "other/b.md" ∅ :=
  c5_out_of_scope_excluded envScoped "other/b.md" ∅ (by decide) (by decide)

/-- Parsing branch of `toMs` for a non-blank string whose layout
matches: the epoch value is the components-as-UTC value shifted by the
local timezone offset. -/
theorem toMs_str_parse (tz : Int) (s : String) (u : Int)
    (h1 : ¬ (trimChars s.toList = []))
    (h2 : parseIsoLocalChars (replaceFirstSpace (trimChars s.toList)) = some u) :
    toMs tz (some (FmValue.str s)) = some (u + tz * 60000) := by
  simp only [toMs]
  rw [if_neg h1, h2]

/-- C6: on the spec's two example frontmatters, with the string values
parsed by `toMs` through the `YYYY-MM-DD HH:mm` layout (in any local
timezone), the needs-formatting outcome is true for
`{modified: "2026-01-15 09:30", formatted: "2026-01-14 18:00"}` and
false for `{modified: "2026-01-14 18:00", formatted: "2026-01-15 09:30"}`. -/
theorem c6_spec_examples :
    ∀ tz : Int,
      checkOutcome tz DEFAULT_SETTINGS fmExampleA = true ∧
      checkOutcome tz DEFAULT_SETTINGS fmExampleB = false := by
  intro tz
  have hA1 : lookupFm fmExampleA DEFAULT_SETTINGS.formattedField
      = some (FmValue.str "2026-01-14 18:00") := by decide
  have hA2 : lookupFm fmExampleA DEFAULT_SETTINGS.modifiedField
      = some (FmValue.str "2026-01-15 09:30") := by decide
  have hB1 : lookupFm fmExampleB DEFAULT_SETTINGS.formattedField
      = some (FmValue.str "2026-01-15 09:30") := by decide
  have hB2 : lookupFm fmExampleB DEFAULT_SETTINGS.modifiedField
      = some (FmValue.str "2026-01-14 18:00") := by decide
  have hearly := toMs_str_parse tz "2026-01-14 18:00" 1768413600000
    (by decide) (by decide)
  have hlate := toMs_str_parse tz "2026-01-15 09:30" 1768469400000
    (by decide) (by decide)
  constructor
  · unfold checkOutcome
    rw [hA1, hA2, hearly, hlate]
    simp only [needsFormat, decide_eq_true_eq]
    omega
  · unfold checkOutcome
    rw [hB1, hB2, hearly, hlate]
    simp only [needsFormat]
    rw [decide_eq_false_iff_not]
    omega

/-- C7: evaluating the `checkFile` comparison after exchanging the two
configurable field names equals evaluating the needs-formatting
predicate with its two arguments swapped on the same frontmatter. -/
theorem c7_swapped_field_names :
    ∀ (tz : Int) (s : FormatCheckSettings) (fm : Frontmatter),
      checkOutcome tz (swapFields s) fm =
        needsFormat (toMs tz (lookupFm fm s.modifiedField))
          (toMs tz (lookupFm fm s.formattedField)) := by
  intro tz s fm
  rfl

/-- C8: for every partial persisted blob, `loadSettings` yields a
record where each of the four fields equals the stored value when
present and the corresponding `DEFAULT_SETTINGS` value when absent. -/
theorem c8_load_settings_defaults :
    ∀ d : PartialSettings,
      (∀ v, d.dotColor = some v → (loadSettings d).dotColor = v) ∧
      (d.dotColor = none → (loadSettings d).dotColor = DEFAULT_SETTINGS.dotColor) ∧
      (∀ v, d.includedFolders = some v → (loadSettings d).includedFolders = v) ∧
      (d.includedFolders = none →
        (loadSettings d).includedFolders = DEFAULT_SETTINGS.includedFolders) ∧
      (∀ v, d.formattedField = some v → (loadSettings d).formattedField = v) ∧
      (d.formattedField = none →
        (loadSettings d).formattedField = DEFAULT_SETTINGS.formattedField) ∧
      (∀ v, d.modifiedField = some v → (loadSettings d).modifiedField = v) ∧
      (d.modifiedField = none →
        (loadSettings d).modifiedField = DEFAULT_SETTINGS.modifiedField) := by
  intro d
  refine ⟨fun v hv => ?_, fun h => ?_, fun v hv => ?_, fun h => ?_,
    fun v hv => ?_, fun h => ?_, fun v hv => ?_, fun h => ?_⟩ <;>
    simp [loadSettings, *]

/-- Witness for C8: on a blob storing only dotColor and modifiedField,
the loaded record keeps the stored values and fills defaults. -/
theorem c8_load_settings_defaults_witness :
    (loadSettings partialBlobExample).dotColor = "#ff0000" ∧
    (loadSettings partialBlobExample).includedFolders
      = DEFAULT_SETTINGS.includedFolders :=
  ⟨(c8_load_settings_defaults partialBlobExample).1 "#ff0000" rfl,
   (c8_load_settings_defaults partialBlobExample).2.2.2.1 rfl⟩

/-- After `n + 1` back-to-back schedule calls exactly one timer, the
most recent one, is pending and nothing has run. -/
theorem schedN_succ_eq :
    ∀ n : Nat, schedN (n + 1) =
      { debounceTimer := some n, pendingTimers := [n], nextId := n + 1, runs := 0 } := by
  intro n
  induction n with
  | zero => rfl
  | succ k ih =>
    show scheduleApplyDecorations (schedN (k + 1)) = _
    rw [ih]
    simp [scheduleApplyDecorations, List.erase_cons_head]

/-- C9: at every point in a burst of `scheduleApplyDecorations` calls
at most one debounce timer is pending, and once the delay elapses the
deferred `applyDecorations` runs exactly once. -/
theorem c9_debounce_single_timer :
    ∀ n : Nat,
      (schedN n).pendingTimers.length ≤ 1 ∧
      (1 ≤ n →
        (fireAll (schedN n)).runs = 1 ∧ (fireAll (schedN n)).pendingTimers = []) := by
  intro n
  cases n with
  | zero => exact ⟨by decide, fun h => absurd h (by decide)⟩
  | succ k =>
    rw [schedN_succ_eq k]
    refine ⟨by simp, fun _ => ?_⟩
    constructor
    · simp [fireAll, fireTimer, List.erase_cons_head]
    · simp [fireAll, fireTimer, List.erase_cons_head]

/-- Witness for C9: after a burst of three schedule calls, letting the
delay elapse produces exactly one `applyDecorations` run and leaves no
pending timer. -/
theorem c9_debounce_single_timer_witness :
    (fireAll (schedN 3)).runs = 1 ∧ (fireAll (schedN 3)).pendingTimers = [] :=
  (c9_debounce_single_timer 3).2 (by decide)

/-- C10: after the rename handler runs for old path `oldPath` and a new
file at `newPath`, the old path is no longer tracked; and when the old
path was not tracked before the event, the tracked set is left exactly
as it was — the file is not re-evaluated under its new path. -/
theorem c10_rename_frame :
    ∀ (env : Env) (newPath oldPath : String) (s : Finset String),
      (newPath ≠ oldPath → oldPath ∉ renameHandler env newPath oldPath s) ∧
      (oldPath ∉ s → renameHandler env newPath oldPath s = s) := by
  intro env newPath oldPath s
  constructor
  · intro hne
    unfold renameHandler
    split
    · exact not_mem_checkFile_of_ne (Ne.symm hne) (Finset.not_mem_erase oldPath s)
    · exact Finset.not_mem_erase oldPath s
  · intro hnot
    unfold renameHandler
    rw [if_neg hnot, Finset.erase_eq_of_not_mem hnot]

/-- Witness for C10: renaming untracked `a.md` to `b.md` leaves the
empty tracked set unchanged and keeps `a.md` untracked. -/
theorem c10_rename_frame_witness :
    "a.md" ∉ renameHandler envNoFrontmatter "b.md" "a.md" ∅ ∧
    renameHandler envNoFrontmatter "b.md" "a.md" ∅ = ∅ :=
  ⟨(c10_rename_frame envNoFrontmatter "b.md" "a.md" ∅).1 (by decide),
   (c10_rename_frame envNoFrontmatter "b.md" "a.md" ∅).2 (by decide)⟩

end FormatCheck
